import Mathlib

/-!
Shallow embedding of the Ockam message codec
(`implementations/rust/message/src/message.rs`).

Bytes are modelled as `Nat` (encoders only ever push values `< 256`).
Rust slices become `List Byte`; `&u[k..]` is `List.drop`, and an
out-of-bounds index or slice start — which panics in Rust — is modelled by
the distinguished decode outcome `DError.panicked`.  A `Result<_, String>`
error becomes `DError.err s`.  Every decoder takes the input buffer and
returns either an error or the decoded value together with the unconsumed
remainder, exactly as the Rust `Codec::decode` functions do.
-/

namespace message

/-- A machine byte.  Well-formed buffers hold values `< 256`. -/
abbrev Byte := Nat

/-- Outcome of a decode step that is not a success: either the Rust code
panicked (out-of-bounds slice access), or it returned `Err(msg)`. -/
inductive DError where
  | panicked : DError
  | err (msg : String) : DError
deriving DecidableEq

/-- `u32::to_le_bytes`. -/
def u32_to_le_bytes (v : Nat) : List Byte :=
  [v % 256, v / 256 % 256, v / 65536 % 256, v / 16777216 % 256]

/-- `u16::to_le_bytes`. -/
def u16_to_le_bytes (v : Nat) : List Byte :=
  [v % 256, v / 256 % 256]

/-- `AddressType`: the 1-byte variant tag of an `Address`. -/
inductive AddressType where
  | local : AddressType
  | tcp : AddressType
  | udp : AddressType
deriving DecidableEq

/-- `AddressType as u8`. -/
def AddressType.toU8 : AddressType → Byte
  | .local => 0
  | .tcp => 1
  | .udp => 2

/-- `LocalAddress`: a 32-bit process-local identifier. -/
structure LocalAddress where
  address : Nat
deriving DecidableEq

/-- `std::net::IpAddr` restricted to what the codec touches: an IPv4
address is four octets, an IPv6 address sixteen. -/
inductive IpAddr where
  | v4 (a b c d : Byte) : IpAddr
  | v6 (octets : List Byte) : IpAddr
deriving DecidableEq

/-- `Address`: tagged union of Local / Tcp / Udp addresses.  Each variant
carries its `AddressType` field just as the Rust enum does (the encoder
pushes that stored tag, not one derived from the variant). -/
inductive Address where
  | localAddress (t : AddressType) (la : LocalAddress) : Address
  | tcpAddress (t : AddressType) (ip : IpAddr) (port : Nat) : Address
  | udpAddress (t : AddressType) (ip : IpAddr) (port : Nat) : Address
deriving DecidableEq

/-- `Route`: an ordered sequence of addresses. -/
structure Route where
  addresses : List Address
deriving DecidableEq

/-- `Message`: onward route, return route, opaque body. -/
structure Message where
  onward_route : Route
  return_route : Route
  message_body : List Byte
deriving DecidableEq

/-- `Message::default()`: two empty routes and body `vec![0]`. -/
def Message.default : Message :=
  { onward_route := { addresses := [] }
    return_route := { addresses := [] }
    message_body := [0] }

/-- `LocalAddress::encode`: the identifier as 4 little-endian bytes. -/
def LocalAddress.encode (la : LocalAddress) : List Byte :=
  u32_to_le_bytes la.address

/-- `LocalAddress::decode`: reads `u[0..4]` little-endian and returns
`&u[4..]`.  Fewer than 4 bytes panics (unchecked indexing). -/
def LocalAddress.decode (u : List Byte) : Except DError (LocalAddress × List Byte) :=
  match u with
  | b0 :: b1 :: b2 :: b3 :: rest =>
      .ok ({ address := b0 + b1 * 256 + b2 * 65536 + b3 * 16777216 }, rest)
  | _ => .error .panicked

/-- `IpAddr::encode`: family tag byte (0 = IPv4, 1 = IPv6) then the raw
octets. -/
def IpAddr.encode : IpAddr → List Byte
  | .v4 a b c d => [0, a, b, c, d]
  | .v6 octets => 1 :: octets

/-- `IpAddr::decode`: reads the family tag at `u[0]`; IPv4 consumes the
next four octets and returns `&u[5..]`; the IPv6 tag falls through the
match to `Err("")`; any other tag is `Err("Unknown host address type")`.
Missing bytes panic (unchecked indexing). -/
def IpAddr.decode (u : List Byte) : Except DError (IpAddr × List Byte) :=
  match u with
  | [] => .error .panicked
  | t :: rest =>
      if t = 0 then
        match rest with
        | a :: b :: c :: d :: r => .ok (.v4 a b c d, r)
        | _ => .error .panicked
      else if t = 1 then .error (.err "")
      else .error (.err "Unknown host address type")

/-- `Address::encode`: pushes the stored variant tag, then the payload:
`Local` → `LocalAddress::encode`; `Udp`/`Tcp` → `IpAddr::encode` followed
by the port as 2 raw little-endian bytes. -/
def Address.encode : Address → List Byte
  | .localAddress t la => t.toU8 :: la.encode
  | .udpAddress t ip port => t.toU8 :: (ip.encode ++ u16_to_le_bytes port)
  | .tcpAddress t ip port => t.toU8 :: (ip.encode ++ u16_to_le_bytes port)

/-- `Address::decode`: dispatches on the tag byte `u[0]`: `0` decodes a
`LocalAddress`, `1` is `Err("Not Implemented")`, `2` decodes an IP address
then two little-endian port bytes, anything else is
`Err("Unknown address type")`.  An empty buffer, or a Udp payload with
fewer than two port bytes after the IP, panics. -/
def Address.decode (u : List Byte) : Except DError (Address × List Byte) :=
  match u with
  | [] => .error .panicked
  | t :: rest =>
      if t = 0 then
        match LocalAddress.decode rest with
        | .ok (la, v) => .ok (.localAddress .local la, v)
        | .error e => .error e
      else if t = 1 then .error (.err "Not Implemented")
      else if t = 2 then
        match IpAddr.decode rest with
        | .ok (ipa, v) =>
            match v with
            | p0 :: p1 :: v2 => .ok (.udpAddress .udp ipa (p0 + p1 * 256), v2)
            | _ => .error .panicked
        | .error e => .error e
      else .error (.err "Unknown address type")

/-- `Route::encode`: a zero byte for an empty route, otherwise the count
(`len as u8`, i.e. `len % 256`) followed by each encoded address. -/
def Route.encode (route : Route) : List Byte :=
  if route.addresses.isEmpty then [0]
  else (route.addresses.length % 256) :: (route.addresses.map Address.encode).flatten

/-- The loop body of `Route::decode`: decode `n` addresses in order.  The
Rust loop SWALLOWS an `Err` from `Address::decode` (`Err(s) => {}`) and
continues from the same cursor; a panic inside `Address::decode` still
aborts everything. -/
def Route.decodeLoop : Nat → List Address → List Byte → Except DError (List Address × List Byte)
  | 0, addrs, next => .ok (addrs, next)
  | n + 1, addrs, next =>
      match Address.decode next with
      | .ok (a, x) => Route.decodeLoop n (addrs ++ [a]) x
      | .error .panicked => .error .panicked
      | .error (.err _) => Route.decodeLoop n addrs next

/-- `Route::decode`: reads the count byte `encoded[0]` (an empty buffer
panics via `&encoded[1..]`), then runs the address loop. -/
def Route.decode (encoded : List Byte) : Except DError (Route × List Byte) :=
  match encoded with
  | [] => .error .panicked
  | c :: rest =>
      match Route.decodeLoop c [] rest with
      | .ok (as, next) => .ok ({ addresses := as }, next)
      | .error e => .error e

/-- `Message::encode`: onward route, return route, then the body bytes
verbatim. -/
def Message.encode (msg : Message) : List Byte :=
  Route.encode msg.onward_route ++ Route.encode msg.return_route ++ msg.message_body

/-- `Message::decode`: decodes the two routes, then APPENDS the remaining
bytes onto the default body `vec![0]` and returns those same remaining
bytes as the remainder. -/
def Message.decode (u : List Byte) : Except DError (Message × List Byte) :=
  match Route.decode u with
  | .error e => .error e
  | .ok (r1, w1) =>
      match Route.decode w1 with
      | .error e => .error e
      | .ok (r2, w2) =>
          .ok ({ onward_route := r1, return_route := r2, message_body := 0 :: w2 }, w2)

/-- `u16::encode` (the VarUint16 packing): values `≥ 0xC000` are rejected;
values `< 0x80` are one byte; otherwise two bytes are built from the
little-endian pair by shifting the high byte left (inside 8 bits), moving
bit 7 of the low byte into bit 0 of the high byte, and setting bit 7 of
the low byte. -/
def u16.encode (ul2 : Nat) : Except String (List Byte) :=
  if 49152 ≤ ul2 then .error "Maximum value exceeded"
  else if ul2 < 128 then .ok [ul2 % 256]
  else
    .ok [ul2 % 256 % 128 + 128,
         (if 128 ≤ ul2 % 256 then ul2 / 256 % 256 * 2 % 256 + 1 else ul2 / 256 % 256 * 2 % 256)]

/-- `u16::decode`: the low 7 bits come from the first byte; if its top bit
is set a second byte is consumed, contributing bit 7 (its bit 0) and bits
8+ (shifted right by one).  A missing second byte panics. -/
def u16.decode (u : List Byte) : Except DError (Nat × List Byte) :=
  match u with
  | [] => .error .panicked
  | b0 :: rest =>
      if 128 ≤ b0 % 256 then
        match rest with
        | [] => .error .panicked
        | b1 :: rest2 =>
            .ok ((b1 % 256 / 2) * 256 + (b0 % 256 % 128 + b1 % 256 % 2 * 128), rest2)
      else .ok (b0 % 256 % 128, rest)

/-- Validity of an `IpAddr` as an IPv4 host address: four genuine octets. -/
def IpAddr.isV4Valid : IpAddr → Bool
  | .v4 a b c d => a < 256 && b < 256 && c < 256 && d < 256
  | .v6 _ => false

/-- Validity of an `Address` for the round-trip claims: a Local variant
whose stored tag is `Local` and whose identifier fits in 32 bits, or a Udp
variant whose stored tag is `Udp`, with an IPv4 host and a 16-bit port. -/
def Address.isValid : Address → Bool
  | .localAddress t la => t == .local && la.address < 4294967296
  | .udpAddress t ip port => t == .udp && ip.isV4Valid && port < 65536
  | .tcpAddress _ _ _ => false

/-- Validity of a `Route`: at most 255 addresses, all valid. -/
def Route.isValid (r : Route) : Bool :=
  r.addresses.length ≤ 255 && r.addresses.all Address.isValid

/-- Validity of a `Message`: both routes valid. -/
def Message.isValid (m : Message) : Bool :=
  m.onward_route.isValid && m.return_route.isValid

instance {ε α : Type} [DecidableEq ε] [DecidableEq α] : DecidableEq (Except ε α) := fun x y =>
  match x, y with
  | .error e, .error f =>
      if h : e = f then isTrue (h ▸ rfl) else isFalse (fun c => h (Except.error.inj c))
  | .error _, .ok _ => isFalse (fun c => Except.noConfusion c)
  | .ok _, .error _ => isFalse (fun c => Except.noConfusion c)
  | .ok a, .ok b =>
      if h : a = b then isTrue (h ▸ rfl) else isFalse (fun c => h (Except.ok.inj c))

/-- The message of the reference test `message_codec`: two 3-address
routes (Udp, Udp, Local each) and the single-byte body `[0]`. -/
def testMessage : Message :=
  { onward_route :=
      { addresses :=
          [.udpAddress .udp (.v4 127 0 0 1) 0x8080,
           .udpAddress .udp (.v4 10 0 1 10) 0x7070,
           .localAddress .local { address := 0x00010203 }] }
    return_route :=
      { addresses :=
          [.udpAddress .udp (.v4 127 0 0 2) 0x8080,
           .udpAddress .udp (.v4 10 0 1 11) 0x7070,
           .localAddress .local { address := 0x00010203 }] }
    message_body := [0] }

/-- Decoding inverts encoding for a `LocalAddress` whose identifier fits
in 32 bits, leaving any appended bytes as the remainder. -/
theorem localAddress_decode_encode (la : LocalAddress) (h : la.address < 4294967296)
    (rest : List Byte) : LocalAddress.decode (la.encode ++ rest) = .ok (la, rest) := by
  obtain ⟨a⟩ := la
  have h2 : a < 4294967296 := h
  simp only [LocalAddress.encode, u32_to_le_bytes, List.cons_append, List.nil_append,
    LocalAddress.decode, Except.ok.injEq, Prod.mk.injEq, LocalAddress.mk.injEq, and_true]
  omega

/-- Decoding inverts encoding for an IPv4 address, leaving any appended
bytes as the remainder. -/
theorem ipAddr_decode_encode_v4 (a b c d : Byte) (rest : List Byte) :
    IpAddr.decode (IpAddr.encode (.v4 a b c d) ++ rest) = .ok (.v4 a b c d, rest) := rfl

/-- Decoding inverts encoding for a valid (Local- or Udp-variant)
`Address`, leaving any appended bytes as the remainder. -/
theorem address_decode_encode (ad : Address) (h : ad.isValid = true)
    (rest : List Byte) : Address.decode (Address.encode ad ++ rest) = .ok (ad, rest) := by
  cases ad with
  | localAddress t la =>
      simp only [Address.isValid, Bool.and_eq_true, beq_iff_eq, decide_eq_true_eq] at h
      obtain ⟨ht, hlt⟩ := h
      subst ht
      simp [Address.encode, AddressType.toU8, Address.decode,
        localAddress_decode_encode la hlt rest]
  | udpAddress t ip port =>
      simp only [Address.isValid, Bool.and_eq_true, beq_iff_eq, decide_eq_true_eq] at h
      obtain ⟨⟨ht, hip⟩, hport⟩ := h
      subst ht
      cases ip with
      | v6 o => simp [IpAddr.isV4Valid] at hip
      | v4 a b c d =>
          have hp : port % 256 + port / 256 % 256 * 256 = port := by omega
          have e : Address.decode
              (Address.encode (.udpAddress .udp (.v4 a b c d) port) ++ rest) =
              .ok (.udpAddress .udp (.v4 a b c d)
                (port % 256 + port / 256 % 256 * 256), rest) := rfl
          rw [e, hp]
  | tcpAddress t ip port => simp [Address.isValid] at h

/-- The `Route::decode` loop run on the concatenated encodings of a list
of valid addresses decodes exactly those addresses in order. -/
theorem route_decodeLoop_encode (as : List Address) (h : as.all Address.isValid = true)
    (acc : List Address) (rest : List Byte) :
    Route.decodeLoop as.length acc ((as.map Address.encode).flatten ++ rest) =
      .ok (acc ++ as, rest) := by
  induction as generalizing acc with
  | nil => simp [Route.decodeLoop]
  | cons a as ih =>
      simp only [List.all_cons, Bool.and_eq_true] at h
      simp only [List.map_cons, List.flatten_cons, List.length_cons, List.append_assoc,
        Route.decodeLoop, address_decode_encode a h.1]
      rw [ih h.2 (acc ++ [a])]
      simp

/-- Decoding inverts encoding for a valid `Route` (at most 255 valid
addresses), leaving any appended bytes as the remainder. -/
theorem route_decode_encode (r : Route) (h : r.isValid = true)
    (rest : List Byte) : Route.decode (Route.encode r ++ rest) = .ok (r, rest) := by
  obtain ⟨as⟩ := r
  simp only [Route.isValid, Bool.and_eq_true, decide_eq_true_eq] at h
  cases as with
  | nil => rfl
  | cons a tl =>
      have h1 : (a :: tl).length % 256 = (a :: tl).length :=
        Nat.mod_eq_of_lt (Nat.lt_of_le_of_lt h.1 (by norm_num))
      simp only [Route.encode, List.isEmpty_cons, Bool.false_eq_true, if_false, h1,
        List.cons_append, Route.decode, route_decodeLoop_encode (a :: tl) h.2 [],
        List.nil_append]

/-- If the two leading routes decode successfully, `Message::decode`
succeeds, appends the leftover bytes onto the default body `[0]`, and
returns those same leftover bytes as the remainder. -/
theorem message_decode_routes (u w1 w2 : List Byte) (r1 r2 : Route)
    (h1 : Route.decode u = .ok (r1, w1)) (h2 : Route.decode w1 = .ok (r2, w2)) :
    Message.decode u =
      .ok ({ onward_route := r1, return_route := r2, message_body := 0 :: w2 }, w2) := by
  simp only [Message.decode, h1, h2]

/-- Decoding inverts encoding for a valid `Message` up to the body bug:
the routes come back exactly, the decoded body is the encoded body with a
zero byte prepended, and the remainder is the encoded body itself. -/
theorem message_decode_encode (m : Message) (h : m.isValid = true) :
    Message.decode (Message.encode m) =
      .ok ({ m with message_body := 0 :: m.message_body }, m.message_body) := by
  obtain ⟨r1, r2, body⟩ := m
  simp only [Message.isValid, Bool.and_eq_true] at h
  simp only [Message.encode, List.append_assoc]
  exact message_decode_routes _ _ _ _ _
    (route_decode_encode r1 h.1 (Route.encode r2 ++ body))
    (route_decode_encode r2 h.2 body)

/-- C1: the claim that `Message::decode (Message::encode m)` returns
`(m, empty remainder)` is FALSE at the reference test message: the decoded
body is not the encoded body `[0]` and the remainder is not empty. -/
theorem c1_message_roundtrip_counterexample :
    Message.decode (Message.encode testMessage) ≠ .ok (testMessage, []) := by decide

/-- C1 (amended): the literal message of two 3-address routes with body
`[0]` encodes to 45 bytes, and for every valid message the decode of its
encoding recovers both routes exactly, but yields a body equal to a zero
byte followed by the encoded body, and a remainder equal to the encoded
body bytes rather than an empty slice. -/
theorem c1_message_roundtrip_amended :
    (Message.encode testMessage).length = 45 ∧
    Message.decode (Message.encode testMessage) =
      .ok ({ testMessage with message_body := 0 :: testMessage.message_body },
        testMessage.message_body) ∧
    (∀ m : Message, m.isValid = true →
      Message.decode (Message.encode m) =
        .ok ({ m with message_body := 0 :: m.message_body }, m.message_body)) :=
  ⟨by decide, message_decode_encode testMessage (by decide),
   fun m h => message_decode_encode m h⟩

/-- C1 witness: the amended round-trip instantiated at the reference test
message. -/
theorem c1_message_roundtrip_amended_witness :
    Message.isValid testMessage = true ∧
    Message.decode (Message.encode testMessage) =
      .ok ({ testMessage with message_body := 0 :: testMessage.message_body },
        testMessage.message_body) :=
  ⟨by decide, c1_message_roundtrip_amended.2.2 testMessage (by decide)⟩

/-- C2: the claim says truncated input yields a truncated-input error and
never a panic; the code instead performs an out-of-bounds slice access
(a panic) on a 3-byte `LocalAddress` input and on Udp payloads truncated
before the IP octets or before the port bytes. -/
theorem c2_truncated_input_panics :
    LocalAddress.decode [1, 2, 3] = .error .panicked ∧
    Address.decode [2, 0, 127, 0, 0] = .error .panicked ∧
    Address.decode [2, 0, 127, 0, 0, 1] = .error .panicked :=
  ⟨rfl, rfl, rfl⟩

/-- C3: the claim says the first `Address` decode failure aborts the whole
`Route` decode with that error; the code instead swallows the error
(`Err(s) => \x7b\x7d`) and returns `Ok`: on `[1, 1]` the single address fails
with `Not Implemented`, yet `Route::decode` returns an empty route. -/
theorem c3_route_swallows_address_error :
    Address.decode [1] = .error (.err "Not Implemented") ∧
    Route.decode [1, 1] = .ok ({ addresses := [] }, [1]) :=
  ⟨rfl, rfl⟩

/-- C4: decode inverts encode with an empty remainder for every valid
`LocalAddress`, every IPv4 `IpAddr`, every valid Udp-variant `Address`,
and every valid `Route` of at most 255 Local- or Udp-variant addresses. -/
theorem c4_codec_roundtrips :
    (∀ la : LocalAddress, la.address < 4294967296 →
      LocalAddress.decode (LocalAddress.encode la) = .ok (la, [])) ∧
    (∀ a b c d : Byte, a < 256 → b < 256 → c < 256 → d < 256 →
      IpAddr.decode (IpAddr.encode (.v4 a b c d)) = .ok (.v4 a b c d, [])) ∧
    (∀ ip : IpAddr, ∀ port : Nat, ip.isV4Valid = true → port < 65536 →
      Address.decode (Address.encode (.udpAddress .udp ip port)) =
        .ok (.udpAddress .udp ip port, [])) ∧
    (∀ r : Route, r.isValid = true →
      Route.decode (Route.encode r) = .ok (r, [])) := by
  refine ⟨fun la h => ?_, fun a b c d _ _ _ _ => ?_, fun ip port hip hport => ?_,
    fun r h => ?_⟩
  · simpa using localAddress_decode_encode la h []
  · simpa using ipAddr_decode_encode_v4 a b c d []
  · have hv : (Address.udpAddress .udp ip port).isValid = true := by
      simp [Address.isValid, hip, hport]
    simpa using address_decode_encode (.udpAddress .udp ip port) hv []
  · simpa using route_decode_encode r h []

/-- C4 witness: the four round-trips instantiated at the reference test
values (`LocalAddress 0x00010203`, `127.0.0.1`, `Udp(127.0.0.1, 0x8080)`,
and the 3-address route of the reference `route_codec` test). -/
theorem c4_codec_roundtrips_witness :
    ((66051 : Nat) < 4294967296 ∧
      LocalAddress.decode (LocalAddress.encode { address := 66051 }) =
        .ok ({ address := 66051 }, [])) ∧
    (IpAddr.decode (IpAddr.encode (.v4 127 0 0 1)) = .ok (.v4 127 0 0 1, [])) ∧
    ((IpAddr.v4 127 0 0 1).isV4Valid = true ∧
      Address.decode (Address.encode (.udpAddress .udp (.v4 127 0 0 1) 32896)) =
        .ok (.udpAddress .udp (.v4 127 0 0 1) 32896, [])) ∧
    (Route.isValid testMessage.onward_route = true ∧
      Route.decode (Route.encode testMessage.onward_route) =
        .ok (testMessage.onward_route, [])) :=
  ⟨⟨by decide, c4_codec_roundtrips.1 { address := 66051 } (by decide)⟩,
   c4_codec_roundtrips.2.1 127 0 0 1 (by decide) (by decide) (by decide) (by decide),
   ⟨by decide, c4_codec_roundtrips.2.2.1 (.v4 127 0 0 1) 32896 (by decide) (by decide)⟩,
   ⟨by decide, c4_codec_roundtrips.2.2.2 testMessage.onward_route (by decide)⟩⟩

/-- C5: the VarUint16 encoder at the boundary values: `0x7F` is the single
byte `[0x7F]`, `0x80` is `[0x80, 0x01]`, `0x1300` is `[0x80, 0x26]`,
`0x1381` is `[0x81, 0x27]`, and `0xC000` fails with the range-exceeded
error. -/
theorem c5_varuint16_boundaries :
    u16.encode 0x7F = .ok [0x7F] ∧
    u16.encode 0x80 = .ok [0x80, 0x01] ∧
    u16.encode 0x1300 = .ok [0x80, 0x26] ∧
    u16.encode 0x1381 = .ok [0x81, 0x27] ∧
    u16.encode 0xC000 = .error "Maximum value exceeded" :=
  ⟨rfl, rfl, rfl, rfl, rfl⟩

/-- C6: `Address::decode` on tag byte 1 (Tcp) fails with the
unsupported-variant error whatever follows, and on any tag byte other than
0, 1 or 2 fails with the unrecognized-tag error. -/
theorem c6_address_decode_tag_errors :
    (∀ rest : List Byte, Address.decode (1 :: rest) = .error (.err "Not Implemented")) ∧
    (∀ t : Byte, ∀ rest : List Byte, t ≠ 0 → t ≠ 1 → t ≠ 2 →
      Address.decode (t :: rest) = .error (.err "Unknown address type")) := by
  refine ⟨fun rest => rfl, fun t rest h0 h1 h2 => ?_⟩
  simp [Address.decode, h0, h1, h2]

/-- C6 witness: tag byte 1 with a nonempty payload, and tag byte 7. -/
theorem c6_address_decode_tag_errors_witness :
    Address.decode [1, 9, 9] = .error (.err "Not Implemented") ∧
    ((7 : Byte) ≠ 0 ∧ (7 : Byte) ≠ 1 ∧ (7 : Byte) ≠ 2 ∧
      Address.decode [7, 9] = .error (.err "Unknown address type")) :=
  ⟨c6_address_decode_tag_errors.1 [9, 9],
   by decide, by decide, by decide,
   c6_address_decode_tag_errors.2 7 [9] (by decide) (by decide) (by decide)⟩

/-- C7: the exact encodings of the two literal addresses:
`Udp(127.0.0.1, 0x8080)` is `[2, 0, 127, 0, 0, 1, 0x80, 0x80]` and
`Local(0x00010203)` is `[0, 3, 2, 1, 0]`. -/
theorem c7_address_encode_literals :
    Address.encode (.udpAddress .udp (.v4 127 0 0 1) 0x8080) =
      [2, 0, 127, 0, 0, 1, 0x80, 0x80] ∧
    Address.encode (.localAddress .local { address := 0x00010203 }) =
      [0, 3, 2, 1, 0] :=
  ⟨rfl, rfl⟩

/-- C8: the claim that `IpAddr::decode` succeeds on family tag byte 1
followed by 16 octets is FALSE: the code returns an error there. -/
theorem c8_ipv6_decode_counterexample :
    IpAddr.decode (1 :: List.replicate 16 171) = .error (.err "") ∧
    IpAddr.decode (1 :: List.replicate 16 171) ≠
      .ok (IpAddr.v6 (List.replicate 16 171), []) :=
  ⟨by decide, by decide⟩

/-- C8 (amended): for every input beginning with family tag byte 1
followed by 16 octets, `IpAddr::decode` returns an error (the
empty-message error): IPv6 decode is not implemented, only IPv4 is. -/
theorem c8_ipv6_decode_unsupported :
    ∀ octets rest : List Byte, octets.length = 16 →
      IpAddr.decode (1 :: (octets ++ rest)) = .error (.err "") := by
  intro octets rest _h
  simp [IpAddr.decode]

/-- C8 witness: the amended claim at 16 concrete octets. -/
theorem c8_ipv6_decode_unsupported_witness :
    (List.replicate 16 (7 : Byte)).length = 16 ∧
    IpAddr.decode (1 :: (List.replicate 16 (7 : Byte) ++ [])) = .error (.err "") :=
  ⟨by decide, c8_ipv6_decode_unsupported (List.replicate 16 7) [] (by decide)⟩

/-- C9: whenever `Message::decode` succeeds, the decoded body is a single
zero byte followed by the bytes left after the two routes, and those same
leftover bytes are returned as the (non-empty in general) remainder. -/
theorem c9_decode_body_prepends_zero :
    (∀ (u : List Byte) (m : Message) (w : List Byte),
      Message.decode u = .ok (m, w) → m.message_body = 0 :: w) ∧
    (∀ (u w1 w2 : List Byte) (r1 r2 : Route),
      Route.decode u = .ok (r1, w1) → Route.decode w1 = .ok (r2, w2) →
      Message.decode u =
        .ok ({ onward_route := r1, return_route := r2, message_body := 0 :: w2 }, w2)) := by
  constructor
  · intro u m w h
    unfold Message.decode at h
    cases h1 : Route.decode u with
    | error e => rw [h1] at h; exact Except.noConfusion h
    | ok p =>
        obtain ⟨r1, w1⟩ := p
        simp only [h1] at h
        cases h2 : Route.decode w1 with
        | error e => rw [h2] at h; exact Except.noConfusion h
        | ok q =>
            obtain ⟨r2, w2⟩ := q
            simp only [h2, Except.ok.injEq, Prod.mk.injEq] at h
            obtain ⟨hm, hw⟩ := h
            subst hw
            rw [← hm]
  · exact fun u w1 w2 r1 r2 h1 h2 => message_decode_routes u w1 w2 r1 r2 h1 h2

/-- C9 witness: a buffer of two empty routes followed by `[5, 6]`. -/
theorem c9_decode_body_prepends_zero_witness :
    Message.decode [0, 0, 5, 6] =
      .ok ({ onward_route := { addresses := [] }, return_route := { addresses := [] },
             message_body := [0, 5, 6] }, [5, 6]) ∧
    ({ onward_route := { addresses := [] }, return_route := { addresses := [] },
       message_body := [0, 5, 6] } : Message).message_body = 0 :: [5, 6] :=
  ⟨c9_decode_body_prepends_zero.2 [0, 0, 5, 6] [0, 5, 6] [5, 6]
      { addresses := [] } { addresses := [] } rfl rfl,
   c9_decode_body_prepends_zero.1 [0, 0, 5, 6]
      { onward_route := { addresses := [] }, return_route := { addresses := [] },
        message_body := [0, 5, 6] } [5, 6] rfl⟩

/-- C10: the VarUint16 packing is lossless below `0x8000`: for every
`v < 0x8000` the encoder succeeds and decoding its output returns `v` with
an empty remainder. -/
theorem c10_varuint16_roundtrip :
    ∀ v : Nat, v < 32768 →
      ∃ bs : List Byte, u16.encode v = .ok bs ∧ u16.decode bs = .ok (v, []) := by
  intro v hv
  by_cases h : v < 128
  · refine ⟨[v % 256], ?_, ?_⟩
    · unfold u16.encode
      rw [if_neg (show ¬(49152 ≤ v) by omega), if_pos (show v < 128 from h)]
    · simp only [u16.decode]
      rw [if_neg (show ¬(128 ≤ v % 256 % 256) by omega)]
      simp only [Except.ok.injEq, Prod.mk.injEq, and_true]
      omega
  · by_cases h2 : 128 ≤ v % 256
    · refine ⟨[v % 256 % 128 + 128, v / 256 % 256 * 2 % 256 + 1], ?_, ?_⟩
      · unfold u16.encode
        rw [if_neg (show ¬(49152 ≤ v) by omega), if_neg (show ¬(v < 128) from h),
          if_pos h2]
      · simp only [u16.decode]
        rw [if_pos (show 128 ≤ (v % 256 % 128 + 128) % 256 by omega)]
        simp only [Except.ok.injEq, Prod.mk.injEq, and_true]
        omega
    · refine ⟨[v % 256 % 128 + 128, v / 256 % 256 * 2 % 256], ?_, ?_⟩
      · unfold u16.encode
        rw [if_neg (show ¬(49152 ≤ v) by omega), if_neg (show ¬(v < 128) from h),
          if_neg h2]
      · simp only [u16.decode]
        rw [if_pos (show 128 ≤ (v % 256 % 128 + 128) % 256 by omega)]
        simp only [Except.ok.injEq, Prod.mk.injEq, and_true]
        omega

/-- C10 witness: the round-trip at `v = 0x1381`. -/
theorem c10_varuint16_roundtrip_witness :
    (4993 : Nat) < 32768 ∧
    ∃ bs : List Byte, u16.encode 4993 = .ok bs ∧ u16.decode bs = .ok (4993, []) :=
  ⟨by decide, c10_varuint16_roundtrip 4993 (by decide)⟩

end message
